import Mathlib

/-!
# Reaction lifecycle (`app/reaction.go`)

A shallow embedding of `SaveReactionForPost`, `GetReactionsForPost`,
`DeleteReactionForPost` and `sendReactionEvent`.

The functions of `app/reaction.go` call into collaborators that live in other
packages (post / channel / user lookup, the reaction store, the websocket hub,
the plugin environment).  Those collaborators are fields of the record `App`:
every call the source makes is a call of the corresponding field, and every
call is written to a trace, together with the error it returned, so that
statements such as "the store is never invoked" are statements about the
trace.  `a.Go(func() ...)` is recorded as a scheduled `Task`.  The body of a
task is a list of steps (`taskSteps`) that read and write the post object
behind the pointer `post`, which the two tasks of one operation share;
`interleave` runs the steps of two tasks side by side under a schedule, and
`runTask` runs one task on its own.
-/

namespace Mattermost

/-! ## Data model -/

/-- Modelled from the spec: `model.AppError` is declared outside
`app/reaction.go`.  The value records the arguments that the source passes to
`model.NewAppError`: the operation name (`Where`), the reason code (`Id`),
the details string and the HTTP status. -/
structure AppError where
  Id : String
  Where : String
  DetailedError : String
  StatusCode : Int
deriving DecidableEq, Repr

/-- Modelled from the spec: `model.NewAppError(where, id, params, details, status)`;
`params` is `nil` at every call site of `app/reaction.go` and is left out. -/
def NewAppError (opName id details : String) (status : Int) : AppError :=
  { Id := id, Where := opName, DetailedError := details, StatusCode := status }

/-- The constant `http.StatusForbidden`. -/
def StatusForbidden : Int := 403

/-- Modelled from the spec: `model.DEFAULT_CHANNEL`, the reserved name of the
default (town-square) channel. -/
def DEFAULT_CHANNEL : String := "town-square"

/-- Modelled from the spec: `model.PERMISSION_MANAGE_SYSTEM.Id`, the
system-management permission. -/
def PERMISSION_MANAGE_SYSTEM_Id : String := "manage_system"

/-- Modelled from the spec: `model.WEBSOCKET_EVENT_REACTION_ADDED`, the kind of
the "reaction added" event. -/
def WEBSOCKET_EVENT_REACTION_ADDED : String := "reaction_added"

/-- Modelled from the spec: `model.WEBSOCKET_EVENT_REACTION_REMOVED`, the kind of
the "reaction removed" event. -/
def WEBSOCKET_EVENT_REACTION_REMOVED : String := "reaction_removed"

/-- Modelled from the spec: `model.WEBSOCKET_EVENT_POST_EDITED`, the kind of the
post-update event. -/
def WEBSOCKET_EVENT_POST_EDITED : String := "post_edited"

/-- The fields of `model.Reaction`. -/
structure Reaction where
  UserId : String
  PostId : String
  EmojiName : String
  CreateAt : Int
deriving DecidableEq, Repr

/-- The fields of `model.Post` that `app/reaction.go` reads or writes. -/
structure Post where
  Id : String
  ChannelId : String
  HasReactions : Bool
  UpdateAt : Int
deriving DecidableEq, Repr

/-- The fields of `model.Channel` that `app/reaction.go` reads. -/
structure Channel where
  Id : String
  Name : String
  DeleteAt : Int
deriving DecidableEq, Repr

/-- The fields of `model.User` that `app/reaction.go` reads. -/
structure User where
  Id : String
  Roles : String
deriving DecidableEq, Repr

/-- The value behind `a.License()`; only its presence is tested. -/
structure License where
  Id : String
deriving DecidableEq, Repr

/-- Modelled from the spec: `model.WebSocketEvent` with its broadcast scope.
`Data` lists the entries added with `Add`, oldest first. -/
structure WebSocketEvent where
  Event : String
  TeamId : String
  ChannelId : String
  UserId : String
  Data : List (String × String)
deriving DecidableEq, Repr

/-- Modelled from the spec: `model.NewWebSocketEvent(event, teamId, channelId, userId, omitUsers)`;
`omitUsers` is `nil` at both call sites and is left out. -/
def NewWebSocketEvent (event teamId channelId userId : String) : WebSocketEvent :=
  { Event := event, TeamId := teamId, ChannelId := channelId, UserId := userId, Data := [] }

/-- Modelled from the spec: `(*WebSocketEvent).Add(key, value)`. -/
def WebSocketEvent.Add (m : WebSocketEvent) (key value : String) : WebSocketEvent :=
  { m with Data := m.Data ++ [(key, value)] }

/-- The two hook identifiers `plugin.ReactionHasBeenAddedId` and
`plugin.ReactionHasBeenRemovedId`. -/
inductive HookId where
  | ReactionHasBeenAddedId
  | ReactionHasBeenRemovedId
deriving DecidableEq, Repr

/-- Modelled from the spec: a registered extension.  `WantsHalt` is the
extension's wish to halt further propagation ("a capability each extension may
exercise"). -/
structure Extension where
  Id : String
  WantsHalt : Bool
deriving DecidableEq, Repr

/-- The collaborators of `app/reaction.go`, one field per function the source
calls on `a` (or on `a.Srv.Store.Reaction()`, `a.Plugins`, `model`). -/
structure App where
  GetSinglePost : String → Except AppError Post
  GetChannel : String → Except AppError Channel
  GetUser : String → Except AppError User
  GetRoles : User → List String
  RolesGrantPermission : List String → String → Bool
  License : Option License
  ExperimentalTownSquareIsReadOnly : Bool
  StoreSave : Reaction → Except AppError Reaction
  StoreGetForPost : String → Bool → Except AppError (List Reaction)
  StoreDelete : Reaction → Option AppError
  PluginsReady : Bool
  Plugins : List Extension
  GetMillis : Int
  ReactionToJson : Reaction → String
  PostToJson : Post → String
  PostWithProxyAddedToImageURLs : Post → Post

/-! ## Effects -/

/-- A closure handed to `a.Go`, with the variables it captures.  Both closures
of an operation capture the same pointer `post`; the field `post` is the object
behind that pointer as it is when the task is scheduled.  What a task reads
through the pointer while it runs is the shared object of `execStep`. -/
inductive Task where
  | sendReactionEvent (event : String) (reaction : Reaction) (post : Post) (hasReactions : Bool)
  | runPluginHook (hookId : HookId) (post : Post) (reaction : Reaction)
deriving DecidableEq, Repr

/-- What the synchronous part of an operation does, in program order.  Every
call carries the error it returned (`none` on success). -/
inductive Effect where
  | getSinglePost (postId : String) (err : Option AppError)
  | getChannel (channelId : String) (err : Option AppError)
  | getUser (userId : String) (err : Option AppError)
  | storeSave (reaction : Reaction) (err : Option AppError)
  | storeGetForPost (postId : String) (allowFromCache : Bool) (err : Option AppError)
  | storeDelete (reaction : Reaction) (err : Option AppError)
  | go (task : Task)
deriving DecidableEq, Repr

/-- What the body of a scheduled task does, in program order.  A `hook` carries
the post as the shared object stands when the hook is invoked. -/
inductive TaskEffect where
  | publish (message : WebSocketEvent)
  | invalidateCacheForChannelPosts (channelId : String)
  | debug (msg : String)
  | hook (extension : String) (hookId : HookId) (post : Post) (reaction : Reaction)
deriving DecidableEq, Repr

/-- The value an operation returns together with the trace of what it did. -/
structure Outcome (α : Type) where
  result : Except AppError α
  trace : List Effect

/-! ## The operations of `app/reaction.go` -/

/-- Lines 40-63 of `SaveReactionForPost`: the Store Gateway call and the
scheduling of the two tasks.  `t` is the trace of the lines before. -/
def saveAfterPolicy (a : App) (reaction : Reaction) (post : Post) (t : List Effect) :
    Outcome Reaction :=
  match a.StoreSave reaction with
  | .error err => ⟨.error err, t ++ [.storeSave reaction (some err)]⟩
  | .ok stored =>
    let t1 := t ++ [.storeSave reaction none]
    let t2 := t1 ++ [.go (.sendReactionEvent WEBSOCKET_EVENT_REACTION_ADDED stored post true)]
    if a.PluginsReady then
      ⟨.ok stored, t2 ++ [.go (.runPluginHook .ReactionHasBeenAddedId post stored)]⟩
    else
      ⟨.ok stored, t2⟩

/-- `SaveReactionForPost` (lines 14-64); lines 40-63 are `saveAfterPolicy`. -/
def SaveReactionForPost (a : App) (reaction : Reaction) : Outcome Reaction :=
  match a.GetSinglePost reaction.PostId with
  | .error err => ⟨.error err, [.getSinglePost reaction.PostId (some err)]⟩
  | .ok post =>
    let t1 : List Effect := [.getSinglePost reaction.PostId none]
    match a.GetChannel post.ChannelId with
    | .error err => ⟨.error err, t1 ++ [.getChannel post.ChannelId (some err)]⟩
    | .ok channel =>
      let t2 := t1 ++ [.getChannel post.ChannelId none]
      if channel.DeleteAt > 0 then
        ⟨.error (NewAppError "deleteReactionForPost"
            "api.reaction.save.archived_channel.app_error" "" StatusForbidden), t2⟩
      else if a.License.isSome && a.ExperimentalTownSquareIsReadOnly
          && (channel.Name == DEFAULT_CHANNEL) then
        match a.GetUser reaction.UserId with
        | .error err => ⟨.error err, t2 ++ [.getUser reaction.UserId (some err)]⟩
        | .ok user =>
          let t3 := t2 ++ [.getUser reaction.UserId none]
          if !a.RolesGrantPermission (a.GetRoles user) PERMISSION_MANAGE_SYSTEM_Id then
            ⟨.error (NewAppError "saveReactionForPost"
                "api.reaction.town_square_read_only" "" StatusForbidden), t3⟩
          else
            saveAfterPolicy a reaction post t3
      else
        saveAfterPolicy a reaction post t2

/-- `GetReactionsForPost` (lines 66-72): the list (`nil` on failure), the error
and the store call made. -/
def GetReactionsForPost (a : App) (postId : String) :
    List Reaction × Option AppError × List Effect :=
  match a.StoreGetForPost postId true with
  | .error err => ([], some err, [.storeGetForPost postId true (some err)])
  | .ok reactions => (reactions, none, [.storeGetForPost postId true none])

/-- Lines 100-103 of `DeleteReactionForPost`: `hasReactions` from the list that
`GetReactionsForPost` returned, its error discarded. -/
def hasReactionsBeforeDelete (a : App) (postId : String) : Bool :=
  if (GetReactionsForPost a postId).1.length ≤ 1 then false else true

/-- Lines 100-125 of `DeleteReactionForPost`: the listing, the Store Gateway
call and the scheduling of the two tasks.  `t` is the trace of the lines
before. -/
def deleteAfterPolicy (a : App) (reaction : Reaction) (post : Post) (t : List Effect) :
    Outcome Unit :=
  let hasReactions := hasReactionsBeforeDelete a post.Id
  let t1 := t ++ (GetReactionsForPost a post.Id).2.2
  match a.StoreDelete reaction with
  | some err => ⟨.error err, t1 ++ [.storeDelete reaction (some err)]⟩
  | none =>
    let t2 := t1 ++ [.storeDelete reaction none]
    let t3 := t2 ++ [.go (.sendReactionEvent WEBSOCKET_EVENT_REACTION_REMOVED reaction post
      hasReactions)]
    if a.PluginsReady then
      ⟨.ok (), t3 ++ [.go (.runPluginHook .ReactionHasBeenRemovedId post reaction)]⟩
    else
      ⟨.ok (), t3⟩

/-- `DeleteReactionForPost` (lines 74-126); lines 100-125 are `deleteAfterPolicy`. -/
def DeleteReactionForPost (a : App) (reaction : Reaction) : Outcome Unit :=
  match a.GetSinglePost reaction.PostId with
  | .error err => ⟨.error err, [.getSinglePost reaction.PostId (some err)]⟩
  | .ok post =>
    let t1 : List Effect := [.getSinglePost reaction.PostId none]
    match a.GetChannel post.ChannelId with
    | .error err => ⟨.error err, t1 ++ [.getChannel post.ChannelId (some err)]⟩
    | .ok channel =>
      let t2 := t1 ++ [.getChannel post.ChannelId none]
      if channel.DeleteAt > 0 then
        ⟨.error (NewAppError "deleteReactionForPost"
            "api.reaction.delete.archived_channel.app_error" "" StatusForbidden), t2⟩
      else if a.License.isSome && a.ExperimentalTownSquareIsReadOnly
          && (channel.Name == DEFAULT_CHANNEL) then
        match a.GetUser reaction.UserId with
        | .error err => ⟨.error err, t2 ++ [.getUser reaction.UserId (some err)]⟩
        | .ok user =>
          let t3 := t2 ++ [.getUser reaction.UserId none]
          if !a.RolesGrantPermission (a.GetRoles user) PERMISSION_MANAGE_SYSTEM_Id then
            ⟨.error (NewAppError "deleteReactionForPost"
                "api.reaction.town_square_read_only" "" StatusForbidden), t3⟩
          else
            deleteAfterPolicy a reaction post t3
      else
        deleteAfterPolicy a reaction post t2

/-- `sendReactionEvent` (lines 128-141): the body of the event task. -/
def sendReactionEvent (a : App) (event : String) (reaction : Reaction) (post : Post)
    (hasReactions : Bool) : List TaskEffect :=
  let message := (NewWebSocketEvent event "" post.ChannelId "").Add "reaction"
    (a.ReactionToJson reaction)
  let post1 : Post := { post with HasReactions := hasReactions }
  let post2 : Post := { post1 with UpdateAt := a.GetMillis }
  let umessage := (NewWebSocketEvent WEBSOCKET_EVENT_POST_EDITED "" post.ChannelId "").Add "post"
    (a.PostToJson (a.PostWithProxyAddedToImageURLs post2))
  [.publish message, .invalidateCacheForChannelPosts post.ChannelId, .publish umessage]

/-- One step of a task body.  The steps of a body run in program order; steps
of the two tasks of one operation may alternate in any way.  The steps of
`sendReactionEvent` are lines 130-132, 135, 136, 137 and 138-140; a `hook` step
passes the pointer `post` and the reaction to one extension. -/
inductive Step where
  | publishReaction (event : String) (reaction : Reaction)
  | invalidateCache
  | setHasReactions (hasReactions : Bool)
  | setUpdateAt
  | publishPost
  | debug (msg : String)
  | hook (extension : String) (hookId : HookId) (reaction : Reaction)
deriving DecidableEq, Repr

/-- The effect of one step on the event bus, the cache, the log and the
extensions, and the shared post object after the step; `cell` is the object
behind the pointer `post` before the step. -/
def execStep (a : App) (cell : Post) : Step → List TaskEffect × Post
  | .publishReaction event reaction =>
    ([.publish ((NewWebSocketEvent event "" cell.ChannelId "").Add "reaction"
      (a.ReactionToJson reaction))], cell)
  | .invalidateCache => ([.invalidateCacheForChannelPosts cell.ChannelId], cell)
  | .setHasReactions hasReactions => ([], { cell with HasReactions := hasReactions })
  | .setUpdateAt => ([], { cell with UpdateAt := a.GetMillis })
  | .publishPost =>
    ([.publish ((NewWebSocketEvent WEBSOCKET_EVENT_POST_EDITED "" cell.ChannelId "").Add "post"
      (a.PostToJson (a.PostWithProxyAddedToImageURLs cell)))], cell)
  | .debug msg => ([.debug msg], cell)
  | .hook extension hookId reaction => ([.hook extension hookId cell reaction], cell)

/-- Steps run one after the other on the shared post object. -/
def runSteps (a : App) (cell : Post) : List Step → List TaskEffect
  | [] => []
  | step :: rest => (execStep a cell step).1 ++ runSteps a (execStep a cell step).2 rest

/-- Modelled from the spec: `a.Plugins.RunMultiPluginHook(hookRunnerFunc, hookId)`
is defined in the plugin package.  The spec: "multicast to every currently
registered extension in registration order, stopping early only if an
extension signals it wants to halt" - `forEachExtension(fn)` where
`fn(extension)` returns `continue : bool`. -/
def RunMultiPluginHook (hookRunnerFunc : Extension → List Step × Bool) (hookId : HookId) :
    List Extension → List Step
  | [] => []
  | hooks :: rest =>
    let r := hookRunnerFunc hooks
    if r.2 then r.1 ++ RunMultiPluginHook hookRunnerFunc hookId rest else r.1

/-- The closure passed to `RunMultiPluginHook` by `SaveReactionForPost`
(lines 55-59): log, call the hook with the pointer `post` and the reaction,
`return true`. -/
def addedHookRunner (reaction : Reaction) (hooks : Extension) : List Step × Bool :=
  ([.debug "Reaction has been sent to plugin",
    .hook hooks.Id .ReactionHasBeenAddedId reaction], true)

/-- The closure passed to `RunMultiPluginHook` by `DeleteReactionForPost`
(lines 117-121): log, call the hook with the pointer `post` and the reaction,
`return true`. -/
def removedHookRunner (reaction : Reaction) (hooks : Extension) : List Step × Bool :=
  ([.debug "Reaction removal has been sent to plugin",
    .hook hooks.Id .ReactionHasBeenRemovedId reaction], true)

/-- The steps of the body of a scheduled task, in program order: lines 48 and
110 (`sendReactionEvent`, lines 128-141), lines 53-59 and lines 115-121. -/
def taskSteps (a : App) : Task → List Step
  | .sendReactionEvent event reaction _ hasReactions =>
    [.publishReaction event reaction, .invalidateCache, .setHasReactions hasReactions,
      .setUpdateAt, .publishPost]
  | .runPluginHook .ReactionHasBeenAddedId _ reaction =>
    .debug "Reaction has been added" ::
      RunMultiPluginHook (addedHookRunner reaction) .ReactionHasBeenAddedId a.Plugins
  | .runPluginHook .ReactionHasBeenRemovedId _ reaction =>
    .debug "Reaction has been removed" ::
      RunMultiPluginHook (removedHookRunner reaction) .ReactionHasBeenRemovedId a.Plugins

/-- The post object captured by a task, as it was when the task was scheduled. -/
def Task.post : Task → Post
  | .sendReactionEvent _ _ post _ => post
  | .runPluginHook _ post _ => post

/-- The body of a scheduled task run on its own, from the post object as it was
when the task was scheduled and with no step of another task in between.  For
the event task this is `sendReactionEvent`; for the extension task it is the
run in which every hook is invoked before the event task writes the post. -/
def runTask (a : App) : Task → List TaskEffect
  | .sendReactionEvent event reaction post hasReactions =>
    sendReactionEvent a event reaction post hasReactions
  | .runPluginHook hookId post reaction =>
    runSteps a post (taskSteps a (.runPluginHook hookId post reaction))

/-- The two tasks of one operation run side by side on the shared post object
`cell`: `xs` are the remaining steps of the first task, `ys` those of the
second; the schedule says which task takes the next step (`true` the first,
`false` the second).  When one task is done, or the schedule is used up, the
remaining steps run to completion, the first task's before the second's. -/
def interleave (a : App) : List Bool → Post → List Step → List Step → List TaskEffect
  | [], cell, xs, ys => runSteps a cell (xs ++ ys)
  | _ :: _, cell, [], ys => runSteps a cell ys
  | _ :: _, cell, x :: xs, [] => runSteps a cell (x :: xs)
  | true :: sched, cell, x :: xs, y :: ys =>
    (execStep a cell x).1 ++ interleave a sched (execStep a cell x).2 xs (y :: ys)
  | false :: sched, cell, x :: xs, y :: ys =>
    (execStep a cell y).1 ++ interleave a sched (execStep a cell y).2 (x :: xs) ys

/-- The event task and the extension task of one operation run side by side
under a schedule, from the post object `cell`. -/
def interleaveTasks (a : App) (sched : List Bool) (cell : Post) (eventTask pluginTask : Task) :
    List TaskEffect :=
  interleave a sched cell (taskSteps a eventTask) (taskSteps a pluginTask)

/-! ## Observations on traces -/

/-- The tasks handed to `a.Go`, in the order they were scheduled. -/
def scheduled : List Effect → List Task
  | [] => []
  | .go t :: rest => t :: scheduled rest
  | _ :: rest => scheduled rest

/-- The event tasks among the scheduled tasks. -/
def eventTasks (ts : List Task) : List Task :=
  ts.filter fun t => match t with
    | .sendReactionEvent .. => true
    | _ => false

/-- The extension tasks among the scheduled tasks. -/
def pluginTasks (ts : List Task) : List Task :=
  ts.filter fun t => match t with
    | .runPluginHook .. => true
    | _ => false

/-- The steps of the given tasks, one task after the other. -/
def allSteps (a : App) : List Task → List Step
  | [] => []
  | t :: rest => taskSteps a t ++ allSteps a rest

/-- The effects of all scheduled tasks, each task run to completion in the
order of scheduling, on the post object the tasks share. -/
def fanout (a : App) : List Task → List TaskEffect
  | [] => []
  | t :: rest => runSteps a t.post (allSteps a (t :: rest))

/-- The messages published on the event bus, in order. -/
def published : List TaskEffect → List WebSocketEvent
  | [] => []
  | .publish m :: rest => m :: published rest
  | _ :: rest => published rest

/-- The hook invocations, in order: extension, hook, post, reaction. -/
def hookCalls : List TaskEffect → List (String × HookId × Post × Reaction)
  | [] => []
  | .hook e h p r :: rest => (e, h, p, r) :: hookCalls rest
  | _ :: rest => hookCalls rest

/-- Whether an effect is a call of the Store Gateway (`Save`, `Delete`, `GetForPost`). -/
def Effect.isStoreCall : Effect → Bool
  | .storeSave .. => true
  | .storeDelete .. => true
  | .storeGetForPost .. => true
  | _ => false

/-- Whether an effect is a user lookup. -/
def Effect.isUserLookup : Effect → Bool
  | .getUser .. => true
  | _ => false

/-- The error a call returned; `none` for a successful call and for `go`. -/
def Effect.failure : Effect → Option AppError
  | .getSinglePost _ e => e
  | .getChannel _ e => e
  | .getUser _ e => e
  | .storeSave _ e => e
  | .storeGetForPost _ _ e => e
  | .storeDelete _ e => e
  | .go _ => none

/-- Whether an effect is the reaction listing (`GetForPost`). -/
def Effect.isListing : Effect → Bool
  | .storeGetForPost .. => true
  | _ => false

/-- Every call that failed during the operation has its error returned by the
operation, unchanged. -/
def PropagatesEveryFailure {α : Type} (o : Outcome α) : Prop :=
  ∀ eff ∈ o.trace, ∀ e, eff.failure = some e → o.result = .error e

/-- The hook steps of a step list, in order: extension, hook, reaction. -/
def stepHooks : List Step → List (String × HookId × Reaction)
  | [] => []
  | .hook e h r :: rest => (e, h, r) :: stepHooks rest
  | _ :: rest => stepHooks rest

/-- Whether a step writes nothing to the post but `HasReactions := hasReactions`
or `UpdateAt := GetMillis()`. -/
def Step.writesOnly (hasReactions : Bool) : Step → Bool
  | .setHasReactions h => h == hasReactions
  | _ => true

/-- What can be read through the pointer `post` while the event task runs: the
identity fields of the post as fetched, and `HasReactions` and `UpdateAt`
either as fetched or as the event task writes them (lines 136-137). -/
def sharedPostView (post : Post) (hasReactions : Bool) (now : Int) (cell : Post) : Bool :=
  cell.Id == post.Id && cell.ChannelId == post.ChannelId &&
    (cell.HasReactions == post.HasReactions || cell.HasReactions == hasReactions) &&
    (cell.UpdateAt == post.UpdateAt || cell.UpdateAt == now)

/-! ## Sample environments -/

/-- The error a sample lookup returns for an unknown id. -/
def notFound : AppError := NewAppError "sample" "store.not_found" "" 404

/-- The error a sample store call returns when the backend is down. -/
def storeDown : AppError := NewAppError "sample" "store.unavailable" "" 500

/-- The post of the sample environments. -/
def samplePost : Post := { Id := "p1", ChannelId := "c1", HasReactions := true, UpdateAt := 5 }

/-- A reaction by user `u1` on the sample post. -/
def sampleReaction : Reaction := { UserId := "u1", PostId := "p1", EmojiName := "smile", CreateAt := 0 }

/-- A reaction by user `u2` on the sample post. -/
def otherReaction : Reaction := { UserId := "u2", PostId := "p1", EmojiName := "smile", CreateAt := 0 }

/-- A sample environment: one post `p1` in the given channel, users `u1` and
`u2` with roles `system_user`, the permission granted to role `system_admin`
only, a store that accepts every save and delete and lists `listed` for every
post. -/
def sampleApp (channel : Channel) (license readOnly : Bool)
    (listed : Except AppError (List Reaction)) (plugins : List Extension) : App :=
  { GetSinglePost := fun id => if id = "p1" then .ok samplePost else .error notFound
    GetChannel := fun id => if id = "c1" then .ok channel else .error notFound
    GetUser := fun id => if id = "u1" ∨ id = "u2" then .ok ⟨id, "system_user"⟩ else .error notFound
    GetRoles := fun u => [u.Roles]
    RolesGrantPermission := fun roles _ => roles.contains "system_admin"
    License := if license then some ⟨"lic"⟩ else none
    ExperimentalTownSquareIsReadOnly := readOnly
    StoreSave := fun r => .ok { r with CreateAt := 7 }
    StoreGetForPost := fun _ _ => listed
    StoreDelete := fun _ => none
    PluginsReady := true
    Plugins := plugins
    GetMillis := 9
    ReactionToJson := fun r => r.UserId ++ "/" ++ r.PostId ++ "/" ++ r.EmojiName
    PostToJson := fun p => p.Id ++ (if p.HasReactions then "+" else "-")
    PostWithProxyAddedToImageURLs := fun p => p }

/-- An open channel that is not the default channel. -/
def openChannel : Channel := { Id := "c1", Name := "off-topic", DeleteAt := 0 }

/-- An archived channel. -/
def archivedChannel : Channel := { Id := "c1", Name := "off-topic", DeleteAt := 1500 }

/-- The default channel, not archived. -/
def townSquare : Channel := { Id := "c1", Name := "town-square", DeleteAt := 0 }

/-- The spec's words for the extension multicast: the extensions invoked are
those registered up to and including the first one that wants to halt. -/
def invokedPerSpec : List Extension → List String
  | [] => []
  | e :: rest => if e.WantsHalt then [e.Id] else e.Id :: invokedPerSpec rest

/-- Modelled from the spec: the identity of a reaction is its (user, post,
emoji) triple. -/
def sameTriple (x y : Reaction) : Bool :=
  x.UserId == y.UserId && x.PostId == y.PostId && x.EmojiName == y.EmojiName

/-- Modelled from the spec: the Store Gateway's `listForPost` over the stored
rows. -/
def rowsForPost (rows : List Reaction) (postId : String) : List Reaction :=
  rows.filter fun x => x.PostId == postId

/-- Modelled from the spec: the stored rows after the Store Gateway's `delete`:
the rows of the reaction's triple are removed. -/
def rowsAfterDelete (rows : List Reaction) (r : Reaction) : List Reaction :=
  rows.filter fun x => !sameTriple x r

/-- Modelled from the spec: the stored rows after the Store Gateway's `save`;
the triple is kept unique. -/
def rowsAfterSave (rows : List Reaction) (r : Reaction) : List Reaction :=
  if rows.any (fun x => sameTriple x r) then rows else rows ++ [r]

/-- The `hasReactions` argument of the first scheduled event task. -/
def reportedHasReactions : List Task → Option Bool
  | [] => none
  | .sendReactionEvent _ _ _ h :: _ => some h
  | .runPluginHook .. :: rest => reportedHasReactions rest

/-- A hook invocation without the post it was handed: extension, hook, reaction. -/
def hookKey (c : String × HookId × Post × Reaction) : String × HookId × Reaction :=
  (c.1, c.2.1, c.2.2.2)

/-- Modelled from the spec: the environment `a` with the Store Gateway backed
by the stored rows `rows`: `save` answers with the stored reaction (creation
time assigned by the store), `listForPost` answers with the rows of the post,
or fails with `listErr` when one is given, and `delete` answers without
error. -/
def withStore (a : App) (rows : List Reaction) (listErr : Option AppError) : App :=
  { a with
    StoreSave := fun r => .ok { r with CreateAt := a.GetMillis }
    StoreGetForPost := fun postId _ =>
      match listErr with
      | some e => .error e
      | none => .ok (rowsForPost rows postId)
    StoreDelete := fun _ => none }

/-! ## Theorems -/

/-- The trace of `GetReactionsForPost` is the one listing call, carrying the
error the call returned. -/
theorem getReactionsForPost_trace (a : App) (postId : String) :
    (GetReactionsForPost a postId).2.2 =
      [.storeGetForPost postId true (GetReactionsForPost a postId).2.1] := by
  unfold GetReactionsForPost
  split <;> rfl

/-- C1: when the post and its channel are found and the channel has
`DeleteAt > 0`, `SaveReactionForPost` and `DeleteReactionForPost` both return a
403 archived-channel error, and the trace of neither contains a call of the
Store Gateway (the trace is the two lookups and nothing else). -/
theorem archived_channel_is_forbidden (a : App) (reaction : Reaction) (post : Post)
    (channel : Channel) (hp : a.GetSinglePost reaction.PostId = .ok post)
    (hc : a.GetChannel post.ChannelId = .ok channel) (hd : channel.DeleteAt > 0) :
    (∃ e, (SaveReactionForPost a reaction).result = .error e ∧ e.StatusCode = 403 ∧
        e.Id = "api.reaction.save.archived_channel.app_error") ∧
    (∃ e, (DeleteReactionForPost a reaction).result = .error e ∧ e.StatusCode = 403 ∧
        e.Id = "api.reaction.delete.archived_channel.app_error") ∧
    (∀ eff ∈ (SaveReactionForPost a reaction).trace, eff.isStoreCall = false) ∧
    (∀ eff ∈ (DeleteReactionForPost a reaction).trace, eff.isStoreCall = false) ∧
    (SaveReactionForPost a reaction).trace =
      [.getSinglePost reaction.PostId none, .getChannel post.ChannelId none] ∧
    (DeleteReactionForPost a reaction).trace =
      [.getSinglePost reaction.PostId none, .getChannel post.ChannelId none] := by
  simp [SaveReactionForPost, DeleteReactionForPost, saveAfterPolicy, deleteAfterPolicy,
    GetReactionsForPost, hp, hc, hd, NewAppError, StatusForbidden,
    Effect.isStoreCall]

/-- The archived-channel rejection at the sample archived channel. -/
theorem archived_channel_is_forbidden_witness :
    archivedChannel.DeleteAt > 0 ∧
    (∃ e, (SaveReactionForPost (sampleApp archivedChannel true true (.ok []) []) sampleReaction).result
        = .error e ∧ e.StatusCode = 403 ∧
        e.Id = "api.reaction.save.archived_channel.app_error") :=
  ⟨by decide, (archived_channel_is_forbidden (sampleApp archivedChannel true true (.ok []) [])
    sampleReaction samplePost archivedChannel rfl rfl (by decide)).1⟩

/-- C2: on a channel that is not archived and carries the default channel name,
with a license present, the read-only flag set, the user behind
`reaction.UserId` resolved and that user's roles not granting the
system-management permission, save and delete both return a 403
`town_square_read_only` error, and the trace of neither contains a call of the
Store Gateway (the trace is the three lookups and nothing else). -/
theorem town_square_read_only_is_forbidden (a : App) (reaction : Reaction) (post : Post)
    (channel : Channel) (user : User) (hp : a.GetSinglePost reaction.PostId = .ok post)
    (hc : a.GetChannel post.ChannelId = .ok channel) (hd : ¬ channel.DeleteAt > 0)
    (hn : channel.Name = DEFAULT_CHANNEL) (hl : a.License ≠ none)
    (hf : a.ExperimentalTownSquareIsReadOnly = true)
    (hu : a.GetUser reaction.UserId = .ok user)
    (hr : a.RolesGrantPermission (a.GetRoles user) PERMISSION_MANAGE_SYSTEM_Id = false) :
    (SaveReactionForPost a reaction).result = .error
      { Id := "api.reaction.town_square_read_only", Where := "saveReactionForPost",
        DetailedError := "", StatusCode := 403 } ∧
    (DeleteReactionForPost a reaction).result = .error
      { Id := "api.reaction.town_square_read_only", Where := "deleteReactionForPost",
        DetailedError := "", StatusCode := 403 } ∧
    (∀ eff ∈ (SaveReactionForPost a reaction).trace, eff.isStoreCall = false) ∧
    (∀ eff ∈ (DeleteReactionForPost a reaction).trace, eff.isStoreCall = false) ∧
    (SaveReactionForPost a reaction).trace =
      [.getSinglePost reaction.PostId none, .getChannel post.ChannelId none,
        .getUser reaction.UserId none] ∧
    (DeleteReactionForPost a reaction).trace =
      [.getSinglePost reaction.PostId none, .getChannel post.ChannelId none,
        .getUser reaction.UserId none] := by
  have hl2 : a.License.isSome = true := by
    cases h : a.License with
    | none => exact absurd h hl
    | some l => rfl
  simp [SaveReactionForPost, DeleteReactionForPost, saveAfterPolicy, deleteAfterPolicy,
    GetReactionsForPost, hp, hc, hd, hn, hl2, hf, hu, hr, NewAppError,
    StatusForbidden, Effect.isStoreCall]

/-- The town-square rejection for the sample user `u1`, who is no administrator. -/
theorem town_square_read_only_is_forbidden_witness :
    (SaveReactionForPost (sampleApp townSquare true true (.ok []) []) sampleReaction).result = .error
      { Id := "api.reaction.town_square_read_only", Where := "saveReactionForPost",
        DetailedError := "", StatusCode := 403 } :=
  (town_square_read_only_is_forbidden (sampleApp townSquare true true (.ok []) []) sampleReaction
    samplePost townSquare ⟨"u1", "system_user"⟩ rfl rfl (by decide) rfl (by simp [sampleApp]) rfl
    rfl rfl).1

/-- C10: when the license is absent or the read-only flag is false, neither
save nor delete performs a user lookup, whatever the channel and the roles. -/
theorem no_user_lookup_without_license_or_flag (a : App) (reaction : Reaction)
    (h : a.License = none ∨ a.ExperimentalTownSquareIsReadOnly = false) :
    (∀ eff ∈ (SaveReactionForPost a reaction).trace, eff.isUserLookup = false) ∧
    (∀ eff ∈ (DeleteReactionForPost a reaction).trace, eff.isUserLookup = false) := by
  have hg : (a.License.isSome && a.ExperimentalTownSquareIsReadOnly) = false := by
    rcases h with h | h <;> simp [h]
  constructor
  · unfold SaveReactionForPost saveAfterPolicy
    simp only [hg]
    repeat' split
    all_goals simp_all [Effect.isUserLookup]
  · unfold DeleteReactionForPost deleteAfterPolicy
    simp only [hg, getReactionsForPost_trace]
    repeat' split
    all_goals simp_all [Effect.isUserLookup]

/-- The default channel without a license: no user lookup in the trace of save. -/
theorem no_user_lookup_without_license_or_flag_witness :
    townSquare.Name = DEFAULT_CHANNEL ∧
    ((SaveReactionForPost (sampleApp townSquare false true (.ok []) [])
      sampleReaction).trace.all fun eff => !eff.isUserLookup) = true :=
  ⟨rfl, List.all_eq_true.mpr fun eff h => by
    simp [(no_user_lookup_without_license_or_flag (sampleApp townSquare false true (.ok []) [])
      sampleReaction (Or.inl rfl)).1 eff h]⟩

/-- C3 as stated fails: when the listing that `DeleteReactionForPost` makes
before the delete fails, the delete still succeeds and the listing's error is
not returned. -/
theorem listing_failure_is_swallowed :
    Effect.storeGetForPost "p1" true (some storeDown) ∈
      (DeleteReactionForPost (sampleApp openChannel false false (.error storeDown) [])
        sampleReaction).trace ∧
    (DeleteReactionForPost (sampleApp openChannel false false (.error storeDown) [])
        sampleReaction).result = .ok () ∧
    ¬ PropagatesEveryFailure
      (DeleteReactionForPost (sampleApp openChannel false false (.error storeDown) [])
        sampleReaction) := by
  have h1 : Effect.storeGetForPost "p1" true (some storeDown) ∈
      (DeleteReactionForPost (sampleApp openChannel false false (.error storeDown) [])
        sampleReaction).trace := by
    simp [DeleteReactionForPost, deleteAfterPolicy, GetReactionsForPost, sampleApp, sampleReaction, samplePost,
      openChannel]
  have h2 : (DeleteReactionForPost (sampleApp openChannel false false (.error storeDown) [])
        sampleReaction).result = .ok () := by
    simp [DeleteReactionForPost, deleteAfterPolicy, GetReactionsForPost, sampleApp, sampleReaction, samplePost,
      openChannel]
  refine ⟨h1, h2, ?_⟩
  intro h
  have h3 := h _ h1 storeDown rfl
  rw [h2] at h3
  cases h3

/-- C3, amended: every failed post, channel or user lookup and every failed
Store Gateway `Save` or `Delete` has its error returned unchanged by the
operation; `SaveReactionForPost` swallows no failure at all; the one failure
`DeleteReactionForPost` does not return is that of the listing it makes before
the delete: its result does not depend on what that listing returns, and when
the listing fails the list is treated as empty, so that `hasReactions` is
`false` and an accepted delete schedules its event task with `false`. -/
theorem lookup_and_mutation_failures_propagate (a : App) (reaction : Reaction) :
    PropagatesEveryFailure (SaveReactionForPost a reaction) ∧
    (∀ eff ∈ (DeleteReactionForPost a reaction).trace, eff.isListing = false →
      ∀ e, eff.failure = some e → (DeleteReactionForPost a reaction).result = .error e) ∧
    (∀ listing : String → Bool → Except AppError (List Reaction),
      (DeleteReactionForPost { a with StoreGetForPost := listing } reaction).result =
        (DeleteReactionForPost a reaction).result) ∧
    (∀ post e, a.GetSinglePost reaction.PostId = .ok post →
      a.StoreGetForPost post.Id true = .error e →
      GetReactionsForPost a post.Id = ([], some e, [.storeGetForPost post.Id true (some e)]) ∧
      hasReactionsBeforeDelete a post.Id = false ∧
      ((DeleteReactionForPost a reaction).result = .ok () →
        Effect.storeGetForPost post.Id true (some e) ∈ (DeleteReactionForPost a reaction).trace ∧
        eventTasks (scheduled (DeleteReactionForPost a reaction).trace) =
          [.sendReactionEvent WEBSOCKET_EVENT_REACTION_REMOVED reaction post false])) := by
  refine ⟨?_, ?_, ?_, ?_⟩
  · unfold PropagatesEveryFailure SaveReactionForPost saveAfterPolicy
    repeat' split
    all_goals simp_all [Effect.failure]
  · unfold DeleteReactionForPost deleteAfterPolicy
    simp only [getReactionsForPost_trace]
    repeat' split
    all_goals simp_all [Effect.failure, Effect.isListing]
  · intro listing
    have tail : ∀ post t1 t2,
        (deleteAfterPolicy { a with StoreGetForPost := listing } reaction post t1).result =
          (deleteAfterPolicy a reaction post t2).result := by
      intro post t1 t2
      unfold deleteAfterPolicy
      cases a.StoreDelete reaction <;> cases a.PluginsReady <;> simp
    unfold DeleteReactionForPost
    simp only []
    repeat' split
    all_goals first | rfl | exact tail _ _ _
  · intro post e hp hl
    have hget : GetReactionsForPost a post.Id =
        ([], some e, [.storeGetForPost post.Id true (some e)]) := by
      simp [GetReactionsForPost, hl]
    have hhas : hasReactionsBeforeDelete a post.Id = false := by
      simp [hasReactionsBeforeDelete, hget]
    refine ⟨hget, hhas, fun hs => ⟨?_, ?_⟩⟩
    · revert hs
      unfold DeleteReactionForPost deleteAfterPolicy
      simp only [hp, hget, hhas]
      repeat' split
      all_goals simp_all
    · revert hs
      unfold DeleteReactionForPost deleteAfterPolicy
      simp only [hp, hget, hhas]
      repeat' split
      all_goals simp_all [scheduled, eventTasks]

/-- A failing Store Gateway `Save` has its error returned by `SaveReactionForPost`. -/
theorem lookup_and_mutation_failures_propagate_witness :
    (SaveReactionForPost
      { sampleApp openChannel false false (.ok []) [] with StoreSave := fun _ => .error storeDown }
      sampleReaction).result = .error storeDown :=
  (lookup_and_mutation_failures_propagate
    { sampleApp openChannel false false (.ok []) [] with StoreSave := fun _ => .error storeDown }
    sampleReaction).1 (.storeSave sampleReaction (some storeDown))
    (by simp [SaveReactionForPost, saveAfterPolicy, sampleApp, sampleReaction, samplePost,
      openChannel])
    storeDown rfl

/-- C4: the event task is scheduled exactly once when the operation returns
success; when it returns an error no task is scheduled at all, so the scheduled
tasks publish nothing and invoke no hook. -/
theorem fanout_exactly_when_accepted (a : App) (reaction : Reaction) :
    (∀ stored, (SaveReactionForPost a reaction).result = .ok stored →
      (eventTasks (scheduled (SaveReactionForPost a reaction).trace)).length = 1) ∧
    (∀ e, (SaveReactionForPost a reaction).result = .error e →
      scheduled (SaveReactionForPost a reaction).trace = [] ∧
      (published (fanout a (scheduled (SaveReactionForPost a reaction).trace))).length = 0 ∧
      (hookCalls (fanout a (scheduled (SaveReactionForPost a reaction).trace))).length = 0) ∧
    (∀ u, (DeleteReactionForPost a reaction).result = .ok u →
      (eventTasks (scheduled (DeleteReactionForPost a reaction).trace)).length = 1) ∧
    (∀ e, (DeleteReactionForPost a reaction).result = .error e →
      scheduled (DeleteReactionForPost a reaction).trace = [] ∧
      (published (fanout a (scheduled (DeleteReactionForPost a reaction).trace))).length = 0 ∧
      (hookCalls (fanout a (scheduled (DeleteReactionForPost a reaction).trace))).length = 0) := by
  refine ⟨?_, ?_, ?_, ?_⟩
  · unfold SaveReactionForPost saveAfterPolicy
    repeat' split
    all_goals simp_all [scheduled, eventTasks]
  · unfold SaveReactionForPost saveAfterPolicy
    repeat' split
    all_goals simp_all [scheduled, fanout, published, hookCalls]
  · unfold DeleteReactionForPost deleteAfterPolicy
    simp only [getReactionsForPost_trace]
    repeat' split
    all_goals simp_all [scheduled, eventTasks]
  · unfold DeleteReactionForPost deleteAfterPolicy
    simp only [getReactionsForPost_trace]
    repeat' split
    all_goals simp_all [scheduled, fanout, published, hookCalls]

/-- C4 at two sample inputs: an accepted save schedules one event task; a save
on the archived channel publishes nothing. -/
theorem fanout_exactly_when_accepted_witness :
    (eventTasks (scheduled (SaveReactionForPost (sampleApp openChannel false false (.ok []) [])
      sampleReaction).trace)).length = 1 ∧
    (published (fanout (sampleApp archivedChannel false false (.ok []) [])
      (scheduled (SaveReactionForPost (sampleApp archivedChannel false false (.ok []) [])
        sampleReaction).trace))).length = 0 :=
  ⟨(fanout_exactly_when_accepted (sampleApp openChannel false false (.ok []) [])
      sampleReaction).1 { sampleReaction with CreateAt := 7 }
      (by simp [SaveReactionForPost, saveAfterPolicy, sampleApp, sampleReaction, samplePost,
        openChannel]),
   ((fanout_exactly_when_accepted (sampleApp archivedChannel false false (.ok []) [])
      sampleReaction).2.1 _
      (by simp [SaveReactionForPost, sampleApp, sampleReaction, samplePost,
        archivedChannel]; rfl)).2.1⟩

/-- C5: an accepted save schedules one event task, for the reaction the Store
Gateway returned; the task publishes the "reaction added" event scoped to the
post's channel with the serialized stored reaction as payload, then invalidates
the channel's cached posts, then publishes the post-update event for the post
with `HasReactions = true`; these two are all it publishes. -/
theorem accepted_save_event_task (a : App) (reaction : Reaction) (post : Post) (stored : Reaction)
    (hp : a.GetSinglePost reaction.PostId = .ok post)
    (hs : (SaveReactionForPost a reaction).result = .ok stored) :
    a.StoreSave reaction = .ok stored ∧
    eventTasks (scheduled (SaveReactionForPost a reaction).trace) =
      [.sendReactionEvent WEBSOCKET_EVENT_REACTION_ADDED stored post true] ∧
    runTask a (.sendReactionEvent WEBSOCKET_EVENT_REACTION_ADDED stored post true) =
      [.publish { Event := "reaction_added", TeamId := "", ChannelId := post.ChannelId,
                  UserId := "", Data := [("reaction", a.ReactionToJson stored)] },
       .invalidateCacheForChannelPosts post.ChannelId,
       .publish { Event := "post_edited", TeamId := "", ChannelId := post.ChannelId,
                  UserId := "",
                  Data := [("post", a.PostToJson (a.PostWithProxyAddedToImageURLs
                    { post with HasReactions := true, UpdateAt := a.GetMillis }))] }] ∧
    published (runTask a (.sendReactionEvent WEBSOCKET_EVENT_REACTION_ADDED stored post true)) =
      [{ Event := "reaction_added", TeamId := "", ChannelId := post.ChannelId,
         UserId := "", Data := [("reaction", a.ReactionToJson stored)] },
       { Event := "post_edited", TeamId := "", ChannelId := post.ChannelId,
         UserId := "",
         Data := [("post", a.PostToJson (a.PostWithProxyAddedToImageURLs
           { post with HasReactions := true, UpdateAt := a.GetMillis }))] }] := by
  have hrun : ∀ ev r p h, runTask a (.sendReactionEvent ev r p h) = sendReactionEvent a ev r p h :=
    fun _ _ _ _ => rfl
  revert hs
  unfold SaveReactionForPost saveAfterPolicy
  simp only [hp]
  repeat' split
  all_goals simp_all [scheduled, eventTasks, hrun, sendReactionEvent, published,
    NewWebSocketEvent, WebSocketEvent.Add, WEBSOCKET_EVENT_REACTION_ADDED,
    WEBSOCKET_EVENT_POST_EDITED]

/-- An accepted save in the sample environment: the event task is scheduled for
the stored reaction (creation time assigned by the store) with `true`. -/
theorem accepted_save_event_task_witness :
    eventTasks (scheduled (SaveReactionForPost (sampleApp openChannel false false (.ok []) [])
      sampleReaction).trace) =
      [.sendReactionEvent WEBSOCKET_EVENT_REACTION_ADDED { sampleReaction with CreateAt := 7 }
        samplePost true] :=
  (accepted_save_event_task (sampleApp openChannel false false (.ok []) []) sampleReaction
    samplePost { sampleReaction with CreateAt := 7 } rfl
    (by simp [SaveReactionForPost, saveAfterPolicy, sampleApp, sampleReaction, samplePost,
      openChannel])).2.1

/-- C6: an accepted delete lists the post's reactions immediately before the
Store Gateway delete call, and the one event task it schedules carries
`hasReactions = (countBefore > 1)`, where `countBefore` is the length of the
list that listing returned (empty when the listing failed); the post-update
event is published for the post with that value.  A listing of one reaction
gives `false`, a listing of two or more gives `true`. -/
theorem accepted_delete_has_reactions (a : App) (reaction : Reaction) (post : Post)
    (hp : a.GetSinglePost reaction.PostId = .ok post)
    (hs : (DeleteReactionForPost a reaction).result = .ok ()) :
    (∃ pre suf, (DeleteReactionForPost a reaction).trace =
      pre ++ [.storeGetForPost post.Id true (GetReactionsForPost a post.Id).2.1,
        .storeDelete reaction none] ++ suf) ∧
    eventTasks (scheduled (DeleteReactionForPost a reaction).trace) =
      [.sendReactionEvent WEBSOCKET_EVENT_REACTION_REMOVED reaction post
        (decide ((GetReactionsForPost a post.Id).1.length > 1))] ∧
    published (runTask a (.sendReactionEvent WEBSOCKET_EVENT_REACTION_REMOVED reaction post
        (decide ((GetReactionsForPost a post.Id).1.length > 1)))) =
      [{ Event := "reaction_removed", TeamId := "", ChannelId := post.ChannelId,
         UserId := "", Data := [("reaction", a.ReactionToJson reaction)] },
       { Event := "post_edited", TeamId := "", ChannelId := post.ChannelId,
         UserId := "",
         Data := [("post", a.PostToJson (a.PostWithProxyAddedToImageURLs
           { post with HasReactions := decide ((GetReactionsForPost a post.Id).1.length > 1),
                       UpdateAt := a.GetMillis }))] }] ∧
    (∀ listed, a.StoreGetForPost post.Id true = .ok listed →
      (GetReactionsForPost a post.Id).1 = listed ∧
      (listed.length = 1 → decide ((GetReactionsForPost a post.Id).1.length > 1) = false) ∧
      (listed.length ≥ 2 → decide ((GetReactionsForPost a post.Id).1.length > 1) = true)) := by
  have hrun : ∀ ev r p h, runTask a (.sendReactionEvent ev r p h) = sendReactionEvent a ev r p h :=
    fun _ _ _ _ => rfl
  have hhas : hasReactionsBeforeDelete a post.Id =
      decide ((GetReactionsForPost a post.Id).1.length > 1) := by
    unfold hasReactionsBeforeDelete
    split <;> simp <;> omega
  refine ⟨?_, ?_, ?_, ?_⟩
  · revert hs
    unfold DeleteReactionForPost deleteAfterPolicy
    simp only [hp, getReactionsForPost_trace]
    repeat' split
    all_goals first
      | (intro h; cases h; done)
      | (intro _
         first
          | exact ⟨[.getSinglePost reaction.PostId none, .getChannel post.ChannelId none,
              .getUser reaction.UserId none], _, by simp; rfl⟩
          | exact ⟨[.getSinglePost reaction.PostId none, .getChannel post.ChannelId none],
              _, by simp; rfl⟩)
  · revert hs
    unfold DeleteReactionForPost deleteAfterPolicy
    simp only [hp, getReactionsForPost_trace, hhas]
    repeat' split
    all_goals simp_all [scheduled, eventTasks]
  · simp [hrun, sendReactionEvent, published, NewWebSocketEvent, WebSocketEvent.Add,
      WEBSOCKET_EVENT_REACTION_REMOVED, WEBSOCKET_EVENT_POST_EDITED]
  · intro listed hl
    simp [GetReactionsForPost, hl]
    omega

/-- Deleting the sole listed reaction of the sample post: the event task is
scheduled with `hasReactions = false`. -/
theorem accepted_delete_has_reactions_witness :
    eventTasks (scheduled (DeleteReactionForPost
      (sampleApp openChannel false false (.ok [sampleReaction]) []) sampleReaction).trace) =
      [.sendReactionEvent WEBSOCKET_EVENT_REACTION_REMOVED sampleReaction samplePost false] :=
  (accepted_delete_has_reactions (sampleApp openChannel false false (.ok [sampleReaction]) [])
    sampleReaction samplePost rfl
    (by simp [DeleteReactionForPost, deleteAfterPolicy, sampleApp, sampleReaction, samplePost,
      openChannel])).2.1

/-- Removing the rows of one triple from the stored rows lowers the number of
rows of that triple's post by the number of rows removed. -/
theorem rowsForPost_rowsAfterDelete (rows : List Reaction) (r : Reaction) :
    (rowsForPost rows r.PostId).length =
      (rowsForPost (rowsAfterDelete rows r) r.PostId).length +
        (rows.filter fun x => sameTriple x r).length := by
  induction rows with
  | nil => rfl
  | cons x rest ih =>
    unfold rowsForPost rowsAfterDelete at ih ⊢
    by_cases hq : sameTriple x r = true
    · have hpost : (x.PostId == r.PostId) = true := by
        unfold sameTriple at hq
        simp only [Bool.and_eq_true] at hq
        exact hq.1.2
      simp [List.filter_cons, hq, hpost] at ih ⊢
      omega
    · by_cases hpost : (x.PostId == r.PostId) = true
      · simp [List.filter_cons, hq, hpost] at ih ⊢
        omega
      · simp [List.filter_cons, hq, hpost] at ih ⊢
        omega

/-- C7 as stated fails, twice.  First: the post has one stored reaction (by
`u1`) and the listing returns it; deleting a reaction by `u2` that is not
stored is accepted and reports `hasReactions = false`, although one reaction
remains on the post.  Second: the post has two stored reactions and the listing
fails; deleting the one by `u1` is accepted and reports `hasReactions = false`,
although one reaction remains on the post. -/
theorem has_reactions_false_while_one_remains :
    ((sampleApp openChannel false false (.ok [sampleReaction]) []).StoreGetForPost "p1" true =
        .ok (rowsForPost [sampleReaction] "p1") ∧
      (DeleteReactionForPost (sampleApp openChannel false false (.ok [sampleReaction]) [])
        otherReaction).result = .ok () ∧
      reportedHasReactions (scheduled (DeleteReactionForPost
        (sampleApp openChannel false false (.ok [sampleReaction]) []) otherReaction).trace) =
        some false ∧
      (rowsForPost (rowsAfterDelete [sampleReaction] otherReaction) "p1").length = 1 ∧
      reportedHasReactions (scheduled (DeleteReactionForPost
        (sampleApp openChannel false false (.ok [sampleReaction]) []) otherReaction).trace) ≠
        some (decide (1 ≤
          (rowsForPost (rowsAfterDelete [sampleReaction] otherReaction) "p1").length))) ∧
    ((DeleteReactionForPost (sampleApp openChannel false false (.error storeDown) [])
        sampleReaction).result = .ok () ∧
      reportedHasReactions (scheduled (DeleteReactionForPost
        (sampleApp openChannel false false (.error storeDown) []) sampleReaction).trace) =
        some false ∧
      (rowsForPost (rowsAfterDelete [sampleReaction, otherReaction] sampleReaction) "p1").length
        = 1 ∧
      reportedHasReactions (scheduled (DeleteReactionForPost
        (sampleApp openChannel false false (.error storeDown) []) sampleReaction).trace) ≠
        some (decide (1 ≤ (rowsForPost
          (rowsAfterDelete [sampleReaction, otherReaction] sampleReaction) "p1").length))) := by
  have ha : reportedHasReactions (scheduled (DeleteReactionForPost
      (sampleApp openChannel false false (.ok [sampleReaction]) []) otherReaction).trace) =
      some false := by
    simp [DeleteReactionForPost, deleteAfterPolicy, GetReactionsForPost,
      hasReactionsBeforeDelete, sampleApp, sampleReaction, otherReaction, samplePost,
      openChannel, scheduled, reportedHasReactions]
  have hb : reportedHasReactions (scheduled (DeleteReactionForPost
      (sampleApp openChannel false false (.error storeDown) []) sampleReaction).trace) =
      some false := by
    simp [DeleteReactionForPost, deleteAfterPolicy, GetReactionsForPost,
      hasReactionsBeforeDelete, sampleApp, sampleReaction, samplePost,
      openChannel, scheduled, reportedHasReactions]
  have ra : (rowsForPost (rowsAfterDelete [sampleReaction] otherReaction) "p1").length = 1 := by
    simp [rowsForPost, rowsAfterDelete, sameTriple, sampleReaction, otherReaction]
  have rb : (rowsForPost (rowsAfterDelete [sampleReaction, otherReaction] sampleReaction)
      "p1").length = 1 := by
    simp [rowsForPost, rowsAfterDelete, sameTriple, sampleReaction, otherReaction]
  refine ⟨⟨?_, ?_, ha, ra, ?_⟩, ?_, hb, rb, ?_⟩
  · simp [sampleApp, rowsForPost, sampleReaction]
  · simp [DeleteReactionForPost, deleteAfterPolicy, sampleApp, otherReaction, samplePost,
      openChannel]
  · rw [ha, ra]
    decide
  · simp [DeleteReactionForPost, deleteAfterPolicy, sampleApp, sampleReaction, samplePost,
      openChannel]
  · rw [hb, rb]
    decide

/-- C7, amended: with the Store Gateway backed by stored rows and the post
looked up being the post of the reaction, an accepted save reports
`hasReactions = true`, the stored reaction is a reaction of that post and at
least one reaction is stored for that post after the save; an accepted delete
whose listing succeeded reports `hasReactions = true` exactly when more than
one reaction was stored for the post before the delete; an accepted delete
whose listing failed reports `false`; and when the listing succeeded and the
deleted reaction is stored exactly once (the delete removes exactly one
reaction of the post), the flag is `true` exactly when at least one reaction
remains on the post after the delete. -/
theorem has_reactions_reflects_remaining (a : App) (rows : List Reaction)
    (listErr : Option AppError) (reaction : Reaction) (post : Post)
    (hp : a.GetSinglePost reaction.PostId = .ok post) (hid : post.Id = reaction.PostId) :
    (∀ stored, (SaveReactionForPost (withStore a rows listErr) reaction).result = .ok stored →
      reportedHasReactions
        (scheduled (SaveReactionForPost (withStore a rows listErr) reaction).trace) = some true ∧
      (withStore a rows listErr).StoreSave reaction = .ok stored ∧
      stored.PostId = post.Id ∧
      1 ≤ (rowsForPost (rowsAfterSave rows stored) post.Id).length) ∧
    ((DeleteReactionForPost (withStore a rows listErr) reaction).result = .ok () →
      (listErr = none →
        reportedHasReactions
          (scheduled (DeleteReactionForPost (withStore a rows listErr) reaction).trace) =
          some (decide (1 < (rowsForPost rows post.Id).length))) ∧
      (∀ e, listErr = some e →
        reportedHasReactions
          (scheduled (DeleteReactionForPost (withStore a rows listErr) reaction).trace) =
          some false) ∧
      (listErr = none → (rows.filter fun x => sameTriple x reaction).length = 1 →
        reportedHasReactions
          (scheduled (DeleteReactionForPost (withStore a rows listErr) reaction).trace) =
          some (decide (1 ≤ (rowsForPost (rowsAfterDelete rows reaction) post.Id).length)))) := by
  have hp2 : (withStore a rows listErr).GetSinglePost reaction.PostId = .ok post := hp
  have hflag : (DeleteReactionForPost (withStore a rows listErr) reaction).result = .ok () →
      reportedHasReactions
        (scheduled (DeleteReactionForPost (withStore a rows listErr) reaction).trace) =
        some (hasReactionsBeforeDelete (withStore a rows listErr) post.Id) := by
    intro hs
    revert hs
    unfold DeleteReactionForPost deleteAfterPolicy
    simp only [hp2, getReactionsForPost_trace]
    repeat' split
    all_goals simp_all [scheduled, reportedHasReactions]
  have hok : listErr = none → hasReactionsBeforeDelete (withStore a rows listErr) post.Id =
      decide (1 < (rowsForPost rows post.Id).length) := by
    intro hn
    subst hn
    have hl : (GetReactionsForPost (withStore a rows none) post.Id).1 =
        rowsForPost rows post.Id := rfl
    unfold hasReactionsBeforeDelete
    rw [hl]
    split <;> simp <;> omega
  have hfail : ∀ e, listErr = some e →
      hasReactionsBeforeDelete (withStore a rows listErr) post.Id = false := by
    intro e he
    subst he
    have hl : (GetReactionsForPost (withStore a rows (some e)) post.Id).1 = [] := rfl
    unfold hasReactionsBeforeDelete
    rw [hl]
    rfl
  constructor
  · intro stored hs
    have hsave : (withStore a rows listErr).StoreSave reaction = .ok stored := by
      revert hs
      unfold SaveReactionForPost saveAfterPolicy
      simp only [hp2]
      repeat' split
      all_goals simp_all
    have hst : stored = { reaction with CreateAt := a.GetMillis } := by
      have h : (withStore a rows listErr).StoreSave reaction =
          .ok { reaction with CreateAt := a.GetMillis } := rfl
      rw [h] at hsave
      cases hsave
      rfl
    have hpid : stored.PostId = post.Id := by
      rw [hst, hid]
    refine ⟨?_, hsave, hpid, ?_⟩
    · revert hs
      unfold SaveReactionForPost saveAfterPolicy
      simp only [hp2]
      repeat' split
      all_goals simp_all [scheduled, reportedHasReactions]
    · rw [← hpid]
      unfold rowsAfterSave
      split
      · rename_i hany
        obtain ⟨x, hx, hq⟩ := List.any_eq_true.mp hany
        have hpost : (x.PostId == stored.PostId) = true := by
          unfold sameTriple at hq
          simp only [Bool.and_eq_true] at hq
          exact hq.1.2
        have : x ∈ rowsForPost rows stored.PostId := by
          unfold rowsForPost
          exact List.mem_filter.mpr ⟨hx, hpost⟩
        exact List.length_pos_of_mem this
      · simp [rowsForPost, List.filter_append]
  · intro hs
    refine ⟨fun hn => ?_, fun e he => ?_, fun hn hone => ?_⟩
    · rw [hflag hs, hok hn]
    · rw [hflag hs, hfail e he]
    · rw [hflag hs, hok hn, hid]
      have := rowsForPost_rowsAfterDelete rows reaction
      congr 1
      rw [decide_eq_decide]
      omega

/-- The post has two stored reactions, by `u1` and by `u2`, and the listing
returns them; deleting the one by `u1` reports `hasReactions = true`, and one
reaction remains. -/
theorem has_reactions_reflects_remaining_witness :
    (rowsForPost (rowsAfterDelete [sampleReaction, otherReaction] sampleReaction)
      samplePost.Id).length = 1 ∧
    reportedHasReactions (scheduled (DeleteReactionForPost
        (withStore (sampleApp openChannel false false (.ok []) [])
          [sampleReaction, otherReaction] none) sampleReaction).trace) =
      some (decide (1 ≤ (rowsForPost
        (rowsAfterDelete [sampleReaction, otherReaction] sampleReaction) samplePost.Id).length)) :=
  ⟨by decide,
   ((has_reactions_reflects_remaining (sampleApp openChannel false false (.ok []) [])
      [sampleReaction, otherReaction] none sampleReaction samplePost rfl rfl).2
      (by simp [DeleteReactionForPost, deleteAfterPolicy, withStore, sampleApp, sampleReaction,
        samplePost, openChannel])).2.2 rfl (by decide)⟩

/-- C8, the failing input: on an archived channel the denial returned by
`SaveReactionForPost` carries the operation name `deleteReactionForPost`, the
same name as the denial returned by `DeleteReactionForPost`, whereas the
town-square denial of `SaveReactionForPost` carries `saveReactionForPost`. -/
theorem save_archived_denial_names_delete :
    (SaveReactionForPost (sampleApp archivedChannel true true (.ok []) []) sampleReaction).result =
      .error { Id := "api.reaction.save.archived_channel.app_error",
               Where := "deleteReactionForPost", DetailedError := "", StatusCode := 403 } ∧
    (DeleteReactionForPost (sampleApp archivedChannel true true (.ok []) []) sampleReaction).result =
      .error { Id := "api.reaction.delete.archived_channel.app_error",
               Where := "deleteReactionForPost", DetailedError := "", StatusCode := 403 } ∧
    (SaveReactionForPost (sampleApp townSquare true true (.ok []) []) sampleReaction).result =
      .error { Id := "api.reaction.town_square_read_only",
               Where := "saveReactionForPost", DetailedError := "", StatusCode := 403 } ∧
    (DeleteReactionForPost (sampleApp townSquare true true (.ok []) []) sampleReaction).result =
      .error { Id := "api.reaction.town_square_read_only",
               Where := "deleteReactionForPost", DetailedError := "", StatusCode := 403 } := by
  refine ⟨?_, ?_, ?_, ?_⟩ <;>
    simp [SaveReactionForPost, DeleteReactionForPost, sampleApp, sampleReaction, samplePost,
      archivedChannel, townSquare, NewAppError, StatusForbidden, DEFAULT_CHANNEL]

/-- The hook invocations of two effect lists in a row. -/
theorem hookCalls_append (xs ys : List TaskEffect) :
    hookCalls (xs ++ ys) = hookCalls xs ++ hookCalls ys := by
  induction xs with
  | nil => rfl
  | cons x rest ih => cases x <;> simp [hookCalls, ih]

/-- The hook steps of two step lists in a row. -/
theorem stepHooks_append (xs ys : List Step) :
    stepHooks (xs ++ ys) = stepHooks xs ++ stepHooks ys := by
  induction xs with
  | nil => rfl
  | cons x rest ih => cases x <;> simp [stepHooks, ih]

/-- One step invokes the hook it names, if any, and hands it the post object as
it stands. -/
theorem hookCalls_execStep (a : App) (cell : Post) (step : Step) :
    (hookCalls (execStep a cell step).1).map hookKey = stepHooks [step] ∧
    ∀ c ∈ hookCalls (execStep a cell step).1, c.2.2.1 = cell := by
  cases step <;> simp [execStep, hookCalls, stepHooks, hookKey]

/-- Steps run in a row invoke the hooks they name, in order. -/
theorem hookKeys_runSteps (a : App) (zs : List Step) (cell : Post) :
    (hookCalls (runSteps a cell zs)).map hookKey = stepHooks zs := by
  induction zs generalizing cell with
  | nil => rfl
  | cons z rest ih =>
    have h := (hookCalls_execStep a cell z).1
    have hz : stepHooks (z :: rest) = stepHooks [z] ++ stepHooks rest :=
      stepHooks_append [z] rest
    simp only [runSteps, hookCalls_append, List.map_append, ih, h, hz]

/-- Two tasks run side by side, the first without hook steps: the hooks invoked
are those of the second task, in its program order, whatever the schedule. -/
theorem hookKeys_interleave (a : App) (sched : List Bool) (cell : Post) (xs ys : List Step)
    (hx : stepHooks xs = []) :
    (hookCalls (interleave a sched cell xs ys)).map hookKey = stepHooks ys := by
  induction sched generalizing cell xs ys with
  | nil => simp [interleave, hookKeys_runSteps, stepHooks_append, hx]
  | cons b sched ih =>
    cases xs with
    | nil => simp [interleave, hookKeys_runSteps]
    | cons x xs =>
      cases ys with
      | nil => simp [interleave, hookKeys_runSteps, hx, stepHooks]
      | cons y ys =>
        have hxs : stepHooks [x] = [] ∧ stepHooks xs = [] := by
          have := stepHooks_append [x] xs
          simp only [List.singleton_append, hx] at this
          exact List.append_eq_nil.mp this.symm
        cases b with
        | true =>
          simp only [interleave, hookCalls_append, List.map_append, ih _ _ _ hxs.2,
            (hookCalls_execStep a cell x).1, hxs.1, List.nil_append]
        | false =>
          have hy : stepHooks (y :: ys) = stepHooks [y] ++ stepHooks ys :=
            stepHooks_append [y] ys
          simp only [interleave, hookCalls_append, List.map_append, ih _ _ _ hx,
            (hookCalls_execStep a cell y).1, hy]

/-- A step that writes only what the event task writes keeps the post object
within `sharedPostView`. -/
theorem sharedPostView_execStep (a : App) (post : Post) (h : Bool) (cell : Post) (step : Step)
    (hc : sharedPostView post h a.GetMillis cell = true) (hs : step.writesOnly h = true) :
    sharedPostView post h a.GetMillis (execStep a cell step).2 = true := by
  cases step <;> simp_all [execStep, sharedPostView, Step.writesOnly]

/-- Steps run in a row hand every hook a post object within `sharedPostView`. -/
theorem sharedPostView_runSteps (a : App) (post : Post) (h : Bool) (zs : List Step)
    (cell : Post) (hc : sharedPostView post h a.GetMillis cell = true)
    (hz : ∀ z ∈ zs, z.writesOnly h = true) :
    ∀ c ∈ hookCalls (runSteps a cell zs), sharedPostView post h a.GetMillis c.2.2.1 = true := by
  induction zs generalizing cell with
  | nil => intro c hmem; simp [runSteps, hookCalls] at hmem
  | cons z rest ih =>
    intro c hmem
    simp only [runSteps, hookCalls_append, List.mem_append] at hmem
    rcases hmem with hmem | hmem
    · rw [(hookCalls_execStep a cell z).2 c hmem]
      exact hc
    · exact ih _ (sharedPostView_execStep a post h cell z hc (hz z (List.mem_cons_self _ _)))
        (fun w hw => hz w (List.mem_cons_of_mem _ hw)) c hmem

/-- Two tasks run side by side hand every hook a post object within
`sharedPostView`, whatever the schedule. -/
theorem sharedPostView_interleave (a : App) (post : Post) (h : Bool) (sched : List Bool)
    (cell : Post) (xs ys : List Step) (hc : sharedPostView post h a.GetMillis cell = true)
    (hx : ∀ z ∈ xs, z.writesOnly h = true) (hy : ∀ z ∈ ys, z.writesOnly h = true) :
    ∀ c ∈ hookCalls (interleave a sched cell xs ys),
      sharedPostView post h a.GetMillis c.2.2.1 = true := by
  have happ : ∀ us vs : List Step, (∀ z ∈ us, z.writesOnly h = true) →
      (∀ z ∈ vs, z.writesOnly h = true) → ∀ z ∈ us ++ vs, z.writesOnly h = true := by
    intro us vs hu hv z hz
    rcases List.mem_append.mp hz with hz | hz
    · exact hu z hz
    · exact hv z hz
  induction sched generalizing cell xs ys with
  | nil =>
    simp only [interleave]
    exact sharedPostView_runSteps a post h _ cell hc (happ xs ys hx hy)
  | cons b sched ih =>
    cases xs with
    | nil =>
      simp only [interleave]
      exact sharedPostView_runSteps a post h _ cell hc hy
    | cons x xs =>
      cases ys with
      | nil =>
        simp only [interleave]
        exact sharedPostView_runSteps a post h _ cell hc hx
      | cons y ys =>
        intro c hmem
        cases b with
        | true =>
          simp only [interleave, hookCalls_append, List.mem_append] at hmem
          rcases hmem with hmem | hmem
          · rw [(hookCalls_execStep a cell x).2 c hmem]
            exact hc
          · exact ih _ xs (y :: ys)
              (sharedPostView_execStep a post h cell x hc (hx x (List.mem_cons_self _ _)))
              (fun w hw => hx w (List.mem_cons_of_mem _ hw)) hy c hmem
        | false =>
          simp only [interleave, hookCalls_append, List.mem_append] at hmem
          rcases hmem with hmem | hmem
          · rw [(hookCalls_execStep a cell y).2 c hmem]
            exact hc
          · exact ih _ (x :: xs) ys
              (sharedPostView_execStep a post h cell y hc (hy y (List.mem_cons_self _ _)))
              hx (fun w hw => hy w (List.mem_cons_of_mem _ hw)) c hmem

/-- The hook steps of the multicast built by `SaveReactionForPost`: every
registered extension, in registration order; none of its steps writes the post. -/
theorem stepHooks_added (reaction : Reaction) (exts : List Extension) (h : Bool) :
    stepHooks (RunMultiPluginHook (addedHookRunner reaction) .ReactionHasBeenAddedId exts) =
      exts.map (fun e => (e.Id, HookId.ReactionHasBeenAddedId, reaction)) ∧
    ∀ z ∈ RunMultiPluginHook (addedHookRunner reaction) .ReactionHasBeenAddedId exts,
      z.writesOnly h = true := by
  induction exts with
  | nil => exact ⟨rfl, fun z hz => by simp [RunMultiPluginHook] at hz⟩
  | cons e rest ih =>
    refine ⟨by simp [RunMultiPluginHook, addedHookRunner, stepHooks, ih.1], fun z hz => ?_⟩
    simp only [RunMultiPluginHook, addedHookRunner, if_true, List.cons_append, List.nil_append,
      List.mem_cons] at hz
    rcases hz with rfl | rfl | hz
    · rfl
    · rfl
    · exact ih.2 z hz

/-- The hook steps of the multicast built by `DeleteReactionForPost`: every
registered extension, in registration order; none of its steps writes the post. -/
theorem stepHooks_removed (reaction : Reaction) (exts : List Extension) (h : Bool) :
    stepHooks (RunMultiPluginHook (removedHookRunner reaction) .ReactionHasBeenRemovedId exts) =
      exts.map (fun e => (e.Id, HookId.ReactionHasBeenRemovedId, reaction)) ∧
    ∀ z ∈ RunMultiPluginHook (removedHookRunner reaction) .ReactionHasBeenRemovedId exts,
      z.writesOnly h = true := by
  induction exts with
  | nil => exact ⟨rfl, fun z hz => by simp [RunMultiPluginHook] at hz⟩
  | cons e rest ih =>
    refine ⟨by simp [RunMultiPluginHook, removedHookRunner, stepHooks, ih.1], fun z hz => ?_⟩
    simp only [RunMultiPluginHook, removedHookRunner, if_true, List.cons_append,
      List.nil_append, List.mem_cons] at hz
    rcases hz with rfl | rfl | hz
    · rfl
    · rfl
    · exact ih.2 z hz

/-- The steps of `sendReactionEvent`, run in a row from the post as scheduled,
give the effects of `sendReactionEvent`. -/
theorem runSteps_sendReactionEvent (a : App) (event : String) (reaction : Reaction) (post : Post)
    (h : Bool) :
    runSteps a post (taskSteps a (.sendReactionEvent event reaction post h)) =
      runTask a (.sendReactionEvent event reaction post h) := by
  simp [runSteps, taskSteps, execStep, runTask, sendReactionEvent]

/-- When no extension wants to halt, a halting multicast invokes every
extension. -/
theorem invokedPerSpec_of_no_halt (exts : List Extension)
    (h : ∀ e ∈ exts, e.WantsHalt = false) : invokedPerSpec exts = exts.map fun e => e.Id := by
  induction exts with
  | nil => rfl
  | cons e rest ih =>
    have he : e.WantsHalt = false := h e (List.mem_cons_self _ _)
    have hr : ∀ x ∈ rest, x.WantsHalt = false := fun x hx => h x (List.mem_cons_of_mem _ hx)
    simp [invokedPerSpec, he, ih hr]

/-- C9 as stated fails: with extensions `A` (wants to halt) and `B` registered
in that order, an accepted delete schedules the event task and the extension
task, and the extension task invokes the hook of `A` and then the hook of `B`,
whereas halting at `A` would invoke `A` only. -/
theorem halting_extension_does_not_stop_multicast :
    (DeleteReactionForPost (sampleApp openChannel false false (.ok [sampleReaction])
        [⟨"A", true⟩, ⟨"B", false⟩]) sampleReaction).result = .ok () ∧
    scheduled (DeleteReactionForPost (sampleApp openChannel false false
        (.ok [sampleReaction]) [⟨"A", true⟩, ⟨"B", false⟩]) sampleReaction).trace =
      [.sendReactionEvent WEBSOCKET_EVENT_REACTION_REMOVED sampleReaction samplePost false,
       .runPluginHook .ReactionHasBeenRemovedId samplePost sampleReaction] ∧
    (hookCalls (interleaveTasks (sampleApp openChannel false false (.ok [sampleReaction])
        [⟨"A", true⟩, ⟨"B", false⟩]) [] samplePost
        (.sendReactionEvent WEBSOCKET_EVENT_REACTION_REMOVED sampleReaction samplePost false)
        (.runPluginHook .ReactionHasBeenRemovedId samplePost sampleReaction))).map (·.1) =
      ["A", "B"] ∧
    invokedPerSpec [⟨"A", true⟩, ⟨"B", false⟩] = ["A"] ∧
    (hookCalls (interleaveTasks (sampleApp openChannel false false (.ok [sampleReaction])
        [⟨"A", true⟩, ⟨"B", false⟩]) [] samplePost
        (.sendReactionEvent WEBSOCKET_EVENT_REACTION_REMOVED sampleReaction samplePost false)
        (.runPluginHook .ReactionHasBeenRemovedId samplePost sampleReaction))).map (·.1) ≠
      invokedPerSpec [⟨"A", true⟩, ⟨"B", false⟩] := by
  have hk : (hookCalls (interleaveTasks (sampleApp openChannel false false (.ok [sampleReaction])
      [⟨"A", true⟩, ⟨"B", false⟩]) [] samplePost
      (.sendReactionEvent WEBSOCKET_EVENT_REACTION_REMOVED sampleReaction samplePost false)
      (.runPluginHook .ReactionHasBeenRemovedId samplePost sampleReaction))).map (·.1) =
      ["A", "B"] := by
    simp [interleaveTasks, interleave, taskSteps, runSteps, execStep, RunMultiPluginHook,
      removedHookRunner, hookCalls, sampleApp]
  refine ⟨?_, ?_, hk, by simp [invokedPerSpec], ?_⟩
  · simp [DeleteReactionForPost, deleteAfterPolicy, sampleApp, sampleReaction, samplePost,
      openChannel]
  · simp [DeleteReactionForPost, deleteAfterPolicy, GetReactionsForPost,
      hasReactionsBeforeDelete, sampleApp, sampleReaction, samplePost, openChannel, scheduled]
  · rw [hk]
    simp [invokedPerSpec]

/-- C9, amended: with the extension subsystem ready, an accepted save or delete
schedules the event task and then one extension task.  However the steps of
the two tasks alternate, the extension task invokes the matching hook
(`ReactionHasBeenAdded` for save, `ReactionHasBeenRemoved` for delete) with the
reaction (the stored reaction for save) on every registered extension, in
registration order, and hands each hook the pointer to the fetched post: the
post read through it has the identity fields of the fetched post, and
`HasReactions` and `UpdateAt` either as fetched or as the event task writes
them.  The callback always answers "continue", so no extension halts the
multicast; when no registered extension wants to halt, the extensions invoked
are those a halting multicast would invoke. -/
theorem extension_task_invokes_all (a : App) (reaction : Reaction) (post : Post)
    (hp : a.GetSinglePost reaction.PostId = .ok post) (hready : a.PluginsReady = true) :
    (∀ stored, (SaveReactionForPost a reaction).result = .ok stored →
      scheduled (SaveReactionForPost a reaction).trace =
        [.sendReactionEvent WEBSOCKET_EVENT_REACTION_ADDED stored post true,
         .runPluginHook .ReactionHasBeenAddedId post stored] ∧
      ∀ sched,
        (hookCalls (interleaveTasks a sched post
          (.sendReactionEvent WEBSOCKET_EVENT_REACTION_ADDED stored post true)
          (.runPluginHook .ReactionHasBeenAddedId post stored))).map hookKey =
          a.Plugins.map (fun e => (e.Id, HookId.ReactionHasBeenAddedId, stored)) ∧
        ∀ c ∈ hookCalls (interleaveTasks a sched post
          (.sendReactionEvent WEBSOCKET_EVENT_REACTION_ADDED stored post true)
          (.runPluginHook .ReactionHasBeenAddedId post stored)),
          sharedPostView post true a.GetMillis c.2.2.1 = true) ∧
    ((DeleteReactionForPost a reaction).result = .ok () →
      scheduled (DeleteReactionForPost a reaction).trace =
        [.sendReactionEvent WEBSOCKET_EVENT_REACTION_REMOVED reaction post
          (hasReactionsBeforeDelete a post.Id),
         .runPluginHook .ReactionHasBeenRemovedId post reaction] ∧
      ∀ sched,
        (hookCalls (interleaveTasks a sched post
          (.sendReactionEvent WEBSOCKET_EVENT_REACTION_REMOVED reaction post
            (hasReactionsBeforeDelete a post.Id))
          (.runPluginHook .ReactionHasBeenRemovedId post reaction))).map hookKey =
          a.Plugins.map (fun e => (e.Id, HookId.ReactionHasBeenRemovedId, reaction)) ∧
        ∀ c ∈ hookCalls (interleaveTasks a sched post
          (.sendReactionEvent WEBSOCKET_EVENT_REACTION_REMOVED reaction post
            (hasReactionsBeforeDelete a post.Id))
          (.runPluginHook .ReactionHasBeenRemovedId post reaction)),
          sharedPostView post (hasReactionsBeforeDelete a post.Id) a.GetMillis c.2.2.1 = true) ∧
    ((∀ e ∈ a.Plugins, e.WantsHalt = false) →
      invokedPerSpec a.Plugins = a.Plugins.map fun e => e.Id) := by
  have hview : ∀ h, sharedPostView post h a.GetMillis post = true := by
    intro h
    simp [sharedPostView]
  have hev : ∀ ev r p h, ∀ z ∈ taskSteps a (.sendReactionEvent ev r p h),
      z.writesOnly h = true := by
    intro ev r p h z hz
    simp only [taskSteps, List.mem_cons, List.mem_singleton, List.mem_nil_iff, or_false] at hz
    rcases hz with rfl | rfl | rfl | rfl | rfl <;> simp [Step.writesOnly]
  refine ⟨?_, ?_, invokedPerSpec_of_no_halt a.Plugins⟩
  · intro stored hs
    refine ⟨?_, fun sched => ⟨?_, ?_⟩⟩
    · revert hs
      unfold SaveReactionForPost saveAfterPolicy
      simp only [hp, hready]
      repeat' split
      all_goals simp_all [scheduled]
    · unfold interleaveTasks
      rw [hookKeys_interleave a sched post
        (taskSteps a (.sendReactionEvent WEBSOCKET_EVENT_REACTION_ADDED stored post true)) _ rfl]
      simp [taskSteps, stepHooks, (stepHooks_added stored a.Plugins true).1]
    · unfold interleaveTasks
      refine sharedPostView_interleave a post true sched post _ _ (hview true) (hev _ _ _ _) ?_
      intro z hz
      simp only [taskSteps, List.mem_cons] at hz
      rcases hz with rfl | hz
      · rfl
      · exact (stepHooks_added stored a.Plugins true).2 z hz
  · intro hs
    refine ⟨?_, fun sched => ⟨?_, ?_⟩⟩
    · revert hs
      unfold DeleteReactionForPost deleteAfterPolicy
      simp only [hp, hready, getReactionsForPost_trace]
      repeat' split
      all_goals simp_all [scheduled]
    · unfold interleaveTasks
      rw [hookKeys_interleave a sched post
        (taskSteps a (.sendReactionEvent WEBSOCKET_EVENT_REACTION_REMOVED reaction post
          (hasReactionsBeforeDelete a post.Id))) _ rfl]
      simp [taskSteps, stepHooks, (stepHooks_removed reaction a.Plugins true).1]
    · unfold interleaveTasks
      refine sharedPostView_interleave a post _ sched post _ _ (hview _) (hev _ _ _ _) ?_
      intro z hz
      simp only [taskSteps, List.mem_cons] at hz
      rcases hz with rfl | hz
      · rfl
      · exact (stepHooks_removed reaction a.Plugins _).2 z hz

/-- Two registered extensions `A` and `B`, a delete of the sole reaction: both
`ReactionHasBeenRemoved` hooks are invoked, `A` before `B`.  When the event
task runs first the hooks read the post as the event task left it; when the
extension task runs first they read the post as fetched. -/
theorem extension_task_invokes_all_witness :
    (hookCalls (interleaveTasks (sampleApp openChannel false false (.ok [sampleReaction])
        [⟨"A", false⟩, ⟨"B", false⟩]) [] samplePost
        (.sendReactionEvent WEBSOCKET_EVENT_REACTION_REMOVED sampleReaction samplePost
          (hasReactionsBeforeDelete (sampleApp openChannel false false (.ok [sampleReaction])
            [⟨"A", false⟩, ⟨"B", false⟩]) samplePost.Id))
        (.runPluginHook .ReactionHasBeenRemovedId samplePost sampleReaction))).map hookKey =
      [("A", .ReactionHasBeenRemovedId, sampleReaction),
       ("B", .ReactionHasBeenRemovedId, sampleReaction)] ∧
    hookCalls (interleaveTasks (sampleApp openChannel false false (.ok [sampleReaction])
        [⟨"A", false⟩, ⟨"B", false⟩]) [] samplePost
        (.sendReactionEvent WEBSOCKET_EVENT_REACTION_REMOVED sampleReaction samplePost false)
        (.runPluginHook .ReactionHasBeenRemovedId samplePost sampleReaction)) =
      [("A", .ReactionHasBeenRemovedId, { samplePost with HasReactions := false, UpdateAt := 9 },
          sampleReaction),
       ("B", .ReactionHasBeenRemovedId, { samplePost with HasReactions := false, UpdateAt := 9 },
          sampleReaction)] ∧
    hookCalls (interleaveTasks (sampleApp openChannel false false (.ok [sampleReaction])
        [⟨"A", false⟩, ⟨"B", false⟩]) [false, false, false, false, false] samplePost
        (.sendReactionEvent WEBSOCKET_EVENT_REACTION_REMOVED sampleReaction samplePost false)
        (.runPluginHook .ReactionHasBeenRemovedId samplePost sampleReaction)) =
      [("A", .ReactionHasBeenRemovedId, samplePost, sampleReaction),
       ("B", .ReactionHasBeenRemovedId, samplePost, sampleReaction)] :=
  ⟨(((extension_task_invokes_all (sampleApp openChannel false false (.ok [sampleReaction])
      [⟨"A", false⟩, ⟨"B", false⟩]) sampleReaction samplePost rfl rfl).2.1
      (by simp [DeleteReactionForPost, deleteAfterPolicy, sampleApp, sampleReaction, samplePost,
        openChannel])).2 []).1,
   by simp [interleaveTasks, interleave, taskSteps, runSteps, execStep, RunMultiPluginHook,
      removedHookRunner, hookCalls, sampleApp, samplePost],
   by simp [interleaveTasks, interleave, taskSteps, runSteps, execStep, RunMultiPluginHook,
      removedHookRunner, hookCalls, sampleApp, samplePost]⟩

end Mattermost
